import Mathlib

/-!
Verification of the Termux RPC client (src/xiaozhi_app/android/api.py).

The development shallow-embeds the protocol client `TermuxRpcClient` and its
three command variants (`TermuxLocationCommand`, `TermuxNotificationListCommand`,
`TermuxNotificationRemoveCommand`).  Mutable Python state becomes an explicit
`ClientState` record; the background receive loop becomes a fold over a list of
receive events (chunks of bytes, or a socket timeout); `json.loads` and
`json.dumps` are modelled by an executable JSON reader and writer over the
value type `Json`, faithful to Python on the payloads this client exchanges.
Python exceptions that the receive loop does not catch locally are modelled by
an `exn` slot that short-circuits the remaining work, exactly as a propagating
exception would, and that `run` converts to an "Unexpected error" message.
-/

namespace XiaozhiApi

/-- JSON values as produced by `json.loads`.  Numbers are carried as their
source literal: the client never computes with numbers, it only stores and
re-serializes decoded objects, so the literal text is a faithful carrier. -/
inductive Json where
  | null
  | bool (b : Bool)
  | num (lit : String)
  | str (s : String)
  | arr (elems : List Json)
  | obj (fields : List (String × Json))

/-- The opening curly bracket character (written via its code so that the
character never appears bare in the source text). -/
def lbrace : Char := Char.ofNat 123

/-- The closing curly bracket character. -/
def rbrace : Char := Char.ofNat 125

/-- Whitespace skipped by the JSON reader (the JSON spec's four whitespace
characters, as in Python's `json.loads`). -/
def skipWs (cs : List Char) : List Char :=
  cs.dropWhile (fun c => c == ' ' || c == '\t' || c == '\n' || c == '\r')

/-- Does `hay` start with `needle`? (character-list version) -/
def startsWithChars : List Char → List Char → Bool
  | [], _ => true
  | _ :: _, [] => false
  | a :: as, b :: bs => a == b && startsWithChars as bs

/-- Is `needle` a contiguous substring of `hay`?  Models Python's
`needle in hay` on strings. -/
def subOfChars (needle : List Char) : List Char → Bool
  | [] => startsWithChars needle []
  | c :: rest => startsWithChars needle (c :: rest) || subOfChars needle rest

/-- Characters that may occur in a numeric literal.  `json.loads` enforces a
stricter grammar; on well-formed input the two agree, and this model is only
ever applied beneath a leading digit or minus sign. -/
def numChar (c : Char) : Bool :=
  c.isDigit || c == '-' || c == '+' || c == '.' || c == 'e' || c == 'E'

/-- Read a JSON string body after the opening quote; returns the string and
the input following the closing quote.  Handles the common escapes; the
`\uXXXX` escape is not modelled (no payload of this client uses it). -/
def parseStringBody : Nat → List Char → Option (String × List Char)
  | 0, _ => none
  | _, [] => none
  | fuel + 1, c :: rest =>
    if c == '"' then some ("", rest)
    else if c == '\\' then
      match rest with
      | [] => none
      | e :: rest2 =>
        let ec : Option Char :=
          if e == '"' then some '"'
          else if e == '\\' then some '\\'
          else if e == '/' then some '/'
          else if e == 'n' then some '\n'
          else if e == 't' then some '\t'
          else if e == 'r' then some '\r'
          else none
        match ec with
        | some d => (parseStringBody fuel rest2).map (fun p => (String.mk (d :: p.1.data), p.2))
        | none => none
    else (parseStringBody fuel rest).map (fun p => (String.mk (c :: p.1.data), p.2))

mutual

/-- Read one JSON value (fuel-indexed recursive descent, modelling
`json.loads`). -/
def parseVal : Nat → List Char → Option (Json × List Char)
  | 0, _ => none
  | fuel + 1, cs =>
    match skipWs cs with
    | [] => none
    | c :: rest =>
      if c == lbrace then parseMembers fuel rest
      else if c == '[' then parseElems fuel rest
      else if c == '"' then (parseStringBody fuel rest).map (fun p => (Json.str p.1, p.2))
      else if startsWithChars ['t', 'r', 'u', 'e'] (c :: rest) then
        some (Json.bool true, (c :: rest).drop 4)
      else if startsWithChars ['f', 'a', 'l', 's', 'e'] (c :: rest) then
        some (Json.bool false, (c :: rest).drop 5)
      else if startsWithChars ['n', 'u', 'l', 'l'] (c :: rest) then
        some (Json.null, (c :: rest).drop 4)
      else if c.isDigit || c == '-' then
        let lit := (c :: rest).takeWhile numChar
        if lit.isEmpty then none
        else some (Json.num (String.mk lit), (c :: rest).drop lit.length)
      else none

/-- Read object members after the opening curly bracket, closing bracket
included. -/
def parseMembers : Nat → List Char → Option (Json × List Char)
  | 0, _ => none
  | fuel + 1, cs =>
    match skipWs cs with
    | [] => none
    | c :: rest =>
      if c == rbrace then some (Json.obj [], rest)
      else parseMemberList fuel (c :: rest)

/-- Read a non-empty comma-separated member list, closing bracket included. -/
def parseMemberList : Nat → List Char → Option (Json × List Char)
  | 0, _ => none
  | fuel + 1, cs =>
    match skipWs cs with
    | [] => none
    | c :: rest =>
      if c == '"' then
        match parseStringBody fuel rest with
        | none => none
        | some (key, afterKey) =>
          match skipWs afterKey with
          | ':' :: afterColon =>
            match parseVal fuel afterColon with
            | none => none
            | some (v, afterVal) =>
              match skipWs afterVal with
              | ',' :: afterComma =>
                match parseMemberList fuel afterComma with
                | some (Json.obj fields, rest2) => some (Json.obj ((key, v) :: fields), rest2)
                | _ => none
              | d :: rest2 =>
                if d == rbrace then some (Json.obj [(key, v)], rest2) else none
              | [] => none
          | _ => none
      else none

/-- Read array elements after the opening square bracket, closing bracket
included. -/
def parseElems : Nat → List Char → Option (Json × List Char)
  | 0, _ => none
  | fuel + 1, cs =>
    match skipWs cs with
    | ']' :: rest => some (Json.arr [], rest)
    | [] => none
    | c :: rest => parseElemList fuel (c :: rest)

/-- Read a non-empty comma-separated element list, closing bracket included. -/
def parseElemList : Nat → List Char → Option (Json × List Char)
  | 0, _ => none
  | fuel + 1, cs =>
    match parseVal fuel cs with
    | none => none
    | some (v, afterVal) =>
      match skipWs afterVal with
      | ',' :: afterComma =>
        match parseElemList fuel afterComma with
        | some (Json.arr elems, rest2) => some (Json.arr (v :: elems), rest2)
        | _ => none
      | ']' :: rest2 => some (Json.arr [v], rest2)
      | _ => none

end

/-- `json.loads`: read one JSON value, requiring the whole input to be
consumed (up to trailing whitespace).  `none` models `json.JSONDecodeError`. -/
def jsonParse (s : String) : Option Json :=
  match parseVal (4 * s.data.length + 16) s.data with
  | some (v, rest) => if (skipWs rest).isEmpty then some v else none
  | none => none

/-- Escape a string for JSON output (the payloads this client serializes are
plain ASCII identifiers, for which this matches `json.dumps`). -/
def jsonEscape (s : String) : String :=
  String.mk (s.data.foldr
    (fun c acc =>
      if c == '"' then '\\' :: '"' :: acc
      else if c == '\\' then '\\' :: '\\' :: acc
      else if c == '\n' then '\\' :: 'n' :: acc
      else c :: acc)
    [])

mutual

/-- `json.dumps` with its default separators (item separator a comma plus a
space, key separator a colon plus a space; keys in insertion order). -/
def Json.serialize : Json → String
  | .null => "null"
  | .bool true => "true"
  | .bool false => "false"
  | .num lit => lit
  | .str s => "\"" ++ jsonEscape s ++ "\""
  | .arr elems => "[" ++ serializeElems elems ++ "]"
  | .obj fields => "\x7b" ++ serializeFields fields ++ "\x7d"

/-- Serialize array elements, comma-space separated. -/
def serializeElems : List Json → String
  | [] => ""
  | [v] => Json.serialize v
  | v :: rest => Json.serialize v ++ ", " ++ serializeElems rest

/-- Serialize object members, comma-space separated. -/
def serializeFields : List (String × Json) → String
  | [] => ""
  | [(k, v)] => "\"" ++ jsonEscape k ++ "\": " ++ Json.serialize v
  | (k, v) :: rest =>
    "\"" ++ jsonEscape k ++ "\": " ++ Json.serialize v ++ ", " ++ serializeFields rest

end

/-- UTF-8 encoding of one character (what `str.encode()` emits for it). -/
def charUtf8 (c : Char) : List Nat :=
  let n := c.toNat
  if n < 0x80 then [n]
  else if n < 0x800 then [0xC0 + n / 64, 0x80 + n % 64]
  else if n < 0x10000 then [0xE0 + n / 4096, 0x80 + (n / 64) % 64, 0x80 + n % 64]
  else [0xF0 + n / 262144, 0x80 + (n / 4096) % 64, 0x80 + (n / 64) % 64, 0x80 + n % 64]

/-- `str.encode()`: UTF-8 bytes of a string, each byte a `Nat` below 256. -/
def utf8Encode (s : String) : List Nat :=
  (s.data.map charUtf8).flatten

/-- Is `b` a UTF-8 continuation byte? -/
def isCont (b : Nat) : Bool := decide (0x80 ≤ b) && decide (b < 0xC0)

/-- `bytes.decode()`: UTF-8 decoding of a byte list; `none` models
`UnicodeDecodeError`.  Overlong and surrogate encodings are not policed: the
client only ever decodes text it was sent, and the claims never exercise those
corners. -/
def utf8Decode : List Nat → Option (List Char)
  | [] => some []
  | b :: rest =>
    if b < 0x80 then (utf8Decode rest).map (fun cs => Char.ofNat b :: cs)
    else if b < 0xC0 then none
    else if b < 0xE0 then
      match rest with
      | [] => none
      | b2 :: rest2 =>
        if isCont b2 then
          (utf8Decode rest2).map (fun cs => Char.ofNat ((b - 0xC0) * 64 + (b2 - 0x80)) :: cs)
        else none
    else if b < 0xF0 then
      match rest with
      | b2 :: b3 :: rest3 =>
        if isCont b2 && isCont b3 then
          (utf8Decode rest3).map
            (fun cs => Char.ofNat ((b - 0xE0) * 4096 + (b2 - 0x80) * 64 + (b3 - 0x80)) :: cs)
        else none
      | _ => none
    else if b < 0xF8 then
      match rest with
      | b2 :: b3 :: b4 :: rest4 =>
        if isCont b2 && isCont b3 && isCont b4 then
          (utf8Decode rest4).map
            (fun cs => Char.ofNat
              ((b - 0xF0) * 262144 + (b2 - 0x80) * 4096 + (b3 - 0x80) * 64 + (b4 - 0x80)) :: cs)
        else none
      | _ => none
    else none

/-- Python dict lookup on the decoded member list: with duplicate keys,
`json.loads` keeps the last occurrence, so lookup prefers later bindings. -/
def jsonLookup : List (String × Json) → String → Option Json
  | [], _ => none
  | (k, v) :: rest, key =>
    match jsonLookup rest key with
    | some r => some r
    | none => if k == key then some v else none

/-- Python's `key in data` for the shapes the dispatcher can receive without
raising: key membership for a dict, equality-with-an-element for a list (only
string elements can equal the string key), substring test for a string.
Scalars would raise `TypeError` in Python; the dispatcher models that case
separately before calling this. -/
def Json.hasKey : Json → String → Bool
  | .obj fields, k => fields.any (fun kv => kv.1 == k)
  | .arr elems, k => elems.any (fun v => match v with | .str s => s == k | _ => false)
  | .str s, k => subOfChars k.data s.data
  | _, _ => false

/-- Python's `data[key]` where it returns a value: only a dict supports a
string subscript; `none` models the `TypeError` a list or string raises. -/
def jsonIndex : Json → String → Option Json
  | .obj fields, k => jsonLookup fields k
  | _, _ => none

/-- Zero test for a carried numeric literal: a well-formed JSON number is zero
exactly when every digit of its mantissa is 0. -/
def numLitIsZero (lit : String) : Bool :=
  (lit.data.takeWhile (fun c => !(c == 'e' || c == 'E'))).all
    (fun c => !c.isDigit || c == '0')

/-- Python truthiness of a decoded JSON value (used by
`if not perm[<granted>]`). -/
def Json.truthy : Json → Bool
  | .null => false
  | .bool b => b
  | .num lit => !numLitIsZero lit
  | .str s => !s.isEmpty
  | .arr elems => !elems.isEmpty
  | .obj fields => !fields.isEmpty

/-- Python `str()` of a decoded value as an f-string interpolates it.  Claims
only exercise the string case; for containers Python's repr differs (single
quotes), noted here and never relied upon. -/
def pyStr : Json → String
  | .str s => s
  | .bool true => "True"
  | .bool false => "False"
  | .null => "None"
  | .num lit => lit
  | v => Json.serialize v

/-- The mutable state of one `TermuxRpcClient` instance.

Fields mirror the Python attributes: `socket` is `_socket` (`some ()` while a
connection is open), `buf` is the `_data` bytearray, `result` is `_result`,
`error` is `_error` (the slot stores whatever value the server's error field
held, hence `Json`; the client's own messages are strings), `eventStop` is
`_event_stop`.  Two extra slots: `exn` models a Python exception propagating
out of the receive loop (caught only in `run`), and the write-only
instrumentation fields `sent` and `dispatched` record the outbound messages
and the lines handed to `_process_line`, so that theorems can speak about the
wire traffic and about which lines were dispatched. -/
structure ClientState where
  socket : Option Unit := none
  buf : List Nat := []
  result : Option Json := none
  error : Option Json := none
  eventStop : Bool := false
  exn : Option String := none
  sent : List (List Nat) := []
  dispatched : List String := []

/-- The state of a freshly constructed client (`__init__`). -/
def initClientState : ClientState := {}

/-- First half of `disconnect`: `self._event_stop = True`. -/
def setStop (s : ClientState) : ClientState := { s with eventStop := true }

/-- Second half of `disconnect`: close the socket if open, swallowing
close-time errors (the `try/except/finally` always ends with
`self._socket = None`), so this is total. -/
def closeSocket (s : ClientState) : ClientState := { s with socket := none }

/-- `disconnect()`: set the stop flag, then close the socket. -/
def disconnect (s : ClientState) : ClientState := closeSocket (setStop s)

/-- `_handle_error`: record the reported error and disconnect. -/
def handleError (s : ClientState) (errorMsg : Json) : ClientState :=
  disconnect { s with error := some errorMsg }

/-- One iteration of the `_handle_permissions` loop body for one record.  The
code reads `perm` with the two fixed keys (the log line reads them even for
granted records, so a malformed record raises either way, modelled by `exn`);
a record that is not granted records the denial and disconnects.  An already
raised exception skips the rest of the loop. -/
def permStep (s : ClientState) (perm : Json) : ClientState :=
  if s.exn.isSome then s
  else
    match perm with
    | .obj fields =>
      match jsonLookup fields "permission", jsonLookup fields "granted" with
      | some pname, some g =>
        if g.truthy then s
        else disconnect { s with error := some (.str ("Permission denied: " ++ pyStr pname)) }
      | some _, none => { s with exn := some "KeyError: granted" }
      | none, _ => { s with exn := some "KeyError: permission" }
    | _ => { s with exn := some "TypeError: permission record is not subscriptable" }

/-- `_handle_permissions`: iterate over every record of the permissions value.
Iterating a non-sequence raises; iterating an empty string or empty dict runs
zero iterations (Python for-loop semantics). -/
def handlePermissions (s : ClientState) (perms : Json) : ClientState :=
  match perms with
  | .arr records => records.foldl permStep s
  | .str t => if t.isEmpty then s else { s with exn := some "TypeError: char is not subscriptable" }
  | .obj [] => s
  | _ => { s with exn := some "TypeError: permissions is not iterable" }

/-- The three concrete command variants. -/
inductive Variant where
  | location
  | notificationList
  | notificationRemove

/-- A constructed command: its data-handling policy and the request body its
`to_dict` produces. -/
structure Command where
  variant : Variant
  payload : Json

/-- `_handle_data`, per variant: the location command takes the first line
with a latitude key as the final result and disconnects, ignoring other
lines; the two notification commands take the first data line unconditionally
and disconnect. -/
def handleData (cmd : Command) (s : ClientState) (data : Json) : ClientState :=
  match cmd.variant with
  | .location =>
    if data.hasKey "latitude" then disconnect { s with result := some data } else s
  | .notificationList => disconnect { s with result := some data }
  | .notificationRemove => disconnect { s with result := some data }

/-- `_handle_response`: classify a decoded line.  A scalar raises `TypeError`
on the membership test; a list or string that passes the membership test
raises `TypeError` on the subscript. -/
def handleResponse (cmd : Command) (s : ClientState) (data : Json) : ClientState :=
  match data with
  | .num _ | .bool _ | .null =>
    { s with exn := some "TypeError: argument is not iterable" }
  | _ =>
    if data.hasKey "error" then
      match jsonIndex data "error" with
      | some v => handleError s v
      | none => { s with exn := some "TypeError: not subscriptable" }
    else if data.hasKey "permissions" then
      match jsonIndex data "permissions" with
      | some v => handlePermissions s v
      | none => { s with exn := some "TypeError: not subscriptable" }
    else handleData cmd s data

/-- `_process_line`: JSON-decode one stripped line and dispatch it; on decode
failure record the error and carry on.  The line is also recorded in the
`dispatched` instrumentation list. -/
def processLine (cmd : Command) (s : ClientState) (line : String) : ClientState :=
  let s := { s with dispatched := s.dispatched ++ [line] }
  match jsonParse line with
  | some data => handleResponse cmd s data
  | none => { s with error := some (.str ("Invalid JSON: " ++ line)) }

/-- The whitespace characters `str.strip()` removes (ASCII ones; Python also
strips some exotic Unicode whitespace that no payload of this client
contains). -/
def isPyWs (c : Char) : Bool :=
  c == ' ' || c == '\t' || c == '\n' || c == '\r' || c == Char.ofNat 11 || c == Char.ofNat 12

/-- Python `str.strip()` on a decoded line: drop whitespace from both ends. -/
def pyStrip (s : String) : String :=
  String.mk (((s.data.dropWhile isPyWs).reverse.dropWhile isPyWs).reverse)

/-- Decode the accumulated buffer as one line: `self._data.decode().strip()`. -/
def decodeLine (bytes : List Nat) : Option String :=
  (utf8Decode bytes).map (fun cs => pyStrip (String.mk cs))

/-- One iteration of the inner `for byte in response` loop: append the byte to
the buffer; on a newline byte decode the buffer, clear it, and dispatch the
line.  A decode failure raises (buffer retained, since `clear` runs after the
decode); an exception already in flight skips the remaining bytes of the
chunk, as propagation would.  Note that this loop never consults the stop
flag: all bytes of a received chunk are processed even if a line disconnects. -/
def processByte (cmd : Command) (s : ClientState) (b : Nat) : ClientState :=
  if s.exn.isSome then s
  else if b == 10 then
    match decodeLine (s.buf ++ [b]) with
    | some line => processLine cmd { s with buf := [] } line
    | none => { s with buf := s.buf ++ [b], exn := some "UnicodeDecodeError" }
  else { s with buf := s.buf ++ [b] }

/-- Process one received chunk byte by byte. -/
def processChunk (cmd : Command) (s : ClientState) (bytes : List Nat) : ClientState :=
  bytes.foldl (processByte cmd) s

/-- One observable event of the receive phase: either `recv` returned a chunk
of bytes (an empty chunk meaning the peer closed), or the receive timed out. -/
inductive RecvEvent where
  | chunk (bytes : List Nat)
  | timeout

/-- The `while not self._event_stop` receive loop of `_receive_responses`:
stop-flag checked before each `recv`; an empty read breaks; a receive timeout
records the error and breaks; a propagating exception has already left the
loop. -/
def recvLoop (cmd : Command) (s : ClientState) : List RecvEvent → ClientState
  | [] => s
  | e :: rest =>
    if s.exn.isSome then s
    else if s.eventStop then s
    else
      match e with
      | .timeout => { s with error := some (.str "Receive timed out") }
      | .chunk [] => s
      | .chunk bytes => recvLoop cmd (processChunk cmd s bytes) rest

/-- `_receive_responses`: an early return when no socket is open, then the
receive loop. -/
def receiveResponses (cmd : Command) (s : ClientState) (events : List RecvEvent) : ClientState :=
  if s.socket.isNone then s else recvLoop cmd s events

/-- `_send_request`: if a socket is open, send the serialized request followed
by one newline byte, in a single `sendall`. -/
def sendRequest (cmd : Command) (s : ClientState) : ClientState :=
  if s.socket.isSome then
    { s with sent := s.sent ++ [utf8Encode (Json.serialize cmd.payload) ++ [10]] }
  else s

/-- How the connect-and-send phase of one run went: connected fine, the
connect attempt timed out, the connection was refused, or some other
exception was raised before the receive loop. -/
inductive ConnectOutcome where
  | ok
  | timedOut
  | refused
  | raised (msg : String)

/-- The generic `except Exception` arm of `run`: a Python exception that
propagated out of the receive loop is converted to an "Unexpected error"
message. -/
def catchUnexpected (s : ClientState) : ClientState :=
  match s.exn with
  | some m => { s with error := some (.str ("Unexpected error: " ++ m)), exn := none }
  | none => s

/-- `run()`: connect, send the one request, run the receive loop; the
`except` arms map each failure to its message, and the `finally` arm always
disconnects.  An exception propagating out of the receive loop (`exn`) is
caught by the generic arm. -/
def run (cmd : Command) (co : ConnectOutcome) (events : List RecvEvent)
    (s0 : ClientState) : ClientState :=
  let s :=
    match co with
    | .ok => catchUnexpected (receiveResponses cmd (sendRequest cmd { s0 with socket := some () }) events)
    | .timedOut => { s0 with error := some (.str "Connection timed out") }
    | .refused => { s0 with error := some (.str "Connection refused") }
    | .raised m => { s0 with error := some (.str ("Unexpected error: " ++ m)) }
  disconnect s

/-- `execute()` at the moment `join(timeout)` returns: if the worker finished,
return its `(result, error)` pair; otherwise overwrite the error slot with the
timeout message, disconnect, and return the pair.  The returned state is the
client state as `execute` leaves it. -/
def executeStep (finished : Bool) (s : ClientState) :
    (Option Json × Option Json) × ClientState :=
  if finished then ((s.result, s.error), s)
  else
    let s1 := disconnect { s with error := some (.str "Request timed out") }
    ((s1.result, s1.error), s1)

/-- Allow-list for the location provider argument (a Python set; membership
is all that is ever used of it). -/
def ALLOWED_PROVIDERS : List String := ["gps", "network", "passive"]

/-- Allow-list for the location request argument. -/
def ALLOWED_REQUESTS : List String := ["once", "last", "updates"]

/-- `TermuxLocationCommand.to_dict`: the base request body with the provider
and request merged into the extras. -/
def locationToDict (provider request : String) : Json :=
  .obj [("extras", .obj [("api_method", .str "Location"),
                         ("provider", .str provider),
                         ("request", .str request)])]

/-- `TermuxLocationCommand.__init__`: lowercase both arguments, then validate
them against the allow-lists; a failure is a `ValueError` raised before any
socket exists.  (The Python message interpolates a set, whose iteration order
is unspecified; the message text is therefore modelled loosely.) -/
def mkLocationCommand (provider request : String) : Except String Command :=
  let p := provider.toLower
  let r := request.toLower
  if p ∈ ALLOWED_PROVIDERS then
    if r ∈ ALLOWED_REQUESTS then
      .ok ⟨.location, locationToDict p r⟩
    else .error ("Invalid request: " ++ r)
  else .error ("Invalid provider: " ++ p)

/-- `TermuxNotificationListCommand.to_dict`: extras carry the remove keys
verbatim under the fixed key. -/
def notificationListToDict (keys : List Json) : Json :=
  .obj [("extras", .obj [("api_method", .str "NotificationList"),
                         ("keys", .arr keys)])]

/-- `TermuxNotificationListCommand.__init__`. -/
def mkNotificationListCommand (keys : List Json) : Command :=
  ⟨.notificationList, notificationListToDict keys⟩

/-- `TermuxNotificationRemoveCommand.to_dict`: extras carry the notification
identifier under the fixed key. -/
def notificationRemoveToDict (nid : String) : Json :=
  .obj [("extras", .obj [("api_method", .str "NotificationRemove"),
                         ("id", .str nid)])]

/-- `TermuxNotificationRemoveCommand.__init__`. -/
def mkNotificationRemoveCommand (nid : String) : Command :=
  ⟨.notificationRemove, notificationRemoveToDict nid⟩

/-- A concrete location command used by concrete runs below (the constructor
defaults: provider network, request once). -/
def locCmd : Command := ⟨.location, locationToDict "network" "once"⟩

/-- Convenience: the UTF-8 bytes of a string, as the tests feed them to the
loop. -/
def bytesOf (s : String) : List Nat := utf8Encode s

/-- A client state with an open connection, as the receive loop first sees
it. -/
def openState : ClientState := { initClientState with socket := some () }

/-- Wire bytes of a location fix line. -/
def latLineBytes : List Nat := bytesOf "\x7b\"latitude\": 1\x7d\n"

/-- The decoded location fix carried by `latLineBytes`. -/
def latObj : Json := Json.obj [("latitude", Json.num "1")]

/-- Wire bytes of a second, different location fix line. -/
def latLine2Bytes : List Nat := bytesOf "\x7b\"latitude\": 2\x7d\n"

/-- The decoded location fix carried by `latLine2Bytes`. -/
def latObj2 : Json := Json.obj [("latitude", Json.num "2")]

/-- Wire bytes of a remote-error line. -/
def errLineBytes : List Nat := bytesOf "\x7b\"error\": \"x\"\x7d\n"

/-- Wire bytes of a permission-denied line. -/
def permDeniedBytes : List Nat :=
  bytesOf "\x7b\"permissions\": [\x7b\"permission\": \"ACCESS_FINE_LOCATION\", \"granted\": false\x7d]\x7d\n"

/-- The decoded shape of a line denying one permission. -/
def permDeniedLine (name : String) : Json :=
  Json.obj [("permissions",
    Json.arr [Json.obj [("permission", Json.str name), ("granted", Json.bool false)]])]

/-- A decoded permission record with the given name and granted flag, as the
permissions handler receives it. -/
def mkPermRecord (p : String × Bool) : Json :=
  Json.obj [("permission", Json.str p.1), ("granted", Json.bool p.2)]

/-- The name of the last record with a false granted flag, if any (the record
whose denial message survives the handler's full iteration). -/
def lastDeniedName : List (String × Bool) → Option String
  | [] => none
  | (n, g) :: rest =>
    match lastDeniedName rest with
    | some m => some m
    | none => if g then none else some n

/-- The pure framing discipline of the receive loop, dispatch stripped away:
the buffer of the current unterminated line, and the byte sequences of the
lines recognized so far (each including its terminating newline byte, exactly
as the buffer holds them when the code decodes it). -/
structure FrameSt where
  buf : List Nat := []
  lines : List (List Nat) := []

/-- One byte of framing: append to the buffer; a newline byte completes a
line and resets the buffer (the same per-byte rule as `processByte`, minus
dispatch). -/
def frameByte (st : FrameSt) (b : Nat) : FrameSt :=
  let buf := st.buf ++ [b]
  if b == 10 then ⟨[], st.lines ++ [buf]⟩ else ⟨buf, st.lines⟩

/-- Frame a whole byte sequence. -/
def frameBytes (st : FrameSt) (bs : List Nat) : FrameSt := bs.foldl frameByte st

/-- Frame a sequence of read chunks, one after another. -/
def frameChunks (st : FrameSt) (cs : List (List Nat)) : FrameSt := cs.foldl frameBytes st

section HelperLemmas

lemma frameBytes_append (st : FrameSt) (a b : List Nat) :
    frameBytes st (a ++ b) = frameBytes (frameBytes st a) b := by
  simp [frameBytes, List.foldl_append]

lemma processChunk_append (cmd : Command) (s : ClientState) (a b : List Nat) :
    processChunk cmd s (a ++ b) = processChunk cmd (processChunk cmd s a) b := by
  simp [processChunk, List.foldl_append]

lemma disconnect_socket (s : ClientState) : (disconnect s).socket = none := rfl

lemma disconnect_eventStop (s : ClientState) : (disconnect s).eventStop = true := rfl

lemma permStep_sent (s : ClientState) (p : Json) : (permStep s p).sent = s.sent := by
  unfold permStep disconnect closeSocket setStop
  repeat' split
  all_goals rfl

lemma foldl_permStep_sent (records : List Json) :
    ∀ s : ClientState, (records.foldl permStep s).sent = s.sent := by
  induction records with
  | nil => intro s; rfl
  | cons p rest ih => intro s; rw [List.foldl_cons, ih, permStep_sent]

lemma handlePermissions_sent (s : ClientState) (perms : Json) :
    (handlePermissions s perms).sent = s.sent := by
  unfold handlePermissions
  repeat' split
  all_goals first | rfl | apply foldl_permStep_sent

lemma handleData_sent (cmd : Command) (s : ClientState) (d : Json) :
    (handleData cmd s d).sent = s.sent := by
  unfold handleData disconnect closeSocket setStop
  repeat' split
  all_goals rfl

lemma handleResponse_sent (cmd : Command) (s : ClientState) (d : Json) :
    (handleResponse cmd s d).sent = s.sent := by
  unfold handleResponse handleError disconnect closeSocket setStop
  repeat' split
  all_goals first | rfl | apply handlePermissions_sent | apply handleData_sent

lemma processLine_sent (cmd : Command) (s : ClientState) (line : String) :
    (processLine cmd s line).sent = s.sent := by
  unfold processLine
  split
  · apply handleResponse_sent
  · rfl

lemma processByte_sent (cmd : Command) (s : ClientState) (b : Nat) :
    (processByte cmd s b).sent = s.sent := by
  unfold processByte
  repeat' split
  all_goals first | rfl | apply processLine_sent

lemma processChunk_sent (cmd : Command) (bytes : List Nat) :
    ∀ s : ClientState, (processChunk cmd s bytes).sent = s.sent := by
  induction bytes with
  | nil => intro s; rfl
  | cons b rest ih =>
    intro s
    show (processChunk cmd (processByte cmd s b) rest).sent = s.sent
    rw [ih, processByte_sent]

lemma recvLoop_sent (cmd : Command) (events : List RecvEvent) :
    ∀ s : ClientState, (recvLoop cmd s events).sent = s.sent := by
  induction events with
  | nil => intro s; rfl
  | cons e rest ih =>
    intro s
    unfold recvLoop
    repeat' split
    all_goals first | rfl | rw [ih, processChunk_sent]

lemma permStep_stop (s : ClientState) (p : Json) (h : s.eventStop = true) :
    (permStep s p).eventStop = true := by
  unfold permStep disconnect closeSocket setStop
  repeat' split
  all_goals simp [h]

lemma foldl_permStep_stop (records : List Json) :
    ∀ s : ClientState, s.eventStop = true → (records.foldl permStep s).eventStop = true := by
  induction records with
  | nil => intro s h; exact h
  | cons p rest ih => intro s h; rw [List.foldl_cons]; exact ih _ (permStep_stop s p h)

lemma handlePermissions_stop (s : ClientState) (perms : Json) (h : s.eventStop = true) :
    (handlePermissions s perms).eventStop = true := by
  unfold handlePermissions
  repeat' split
  all_goals first | simp [h] | exact foldl_permStep_stop _ _ h

lemma handleData_stop (cmd : Command) (s : ClientState) (d : Json) (h : s.eventStop = true) :
    (handleData cmd s d).eventStop = true := by
  unfold handleData disconnect closeSocket setStop
  repeat' split
  all_goals simp [h]

lemma handleResponse_stop (cmd : Command) (s : ClientState) (d : Json) (h : s.eventStop = true) :
    (handleResponse cmd s d).eventStop = true := by
  unfold handleResponse handleError disconnect closeSocket setStop
  repeat' split
  all_goals first | simp [h] | exact handlePermissions_stop _ _ h | exact handleData_stop _ _ _ h

lemma processLine_stop (cmd : Command) (s : ClientState) (line : String) (h : s.eventStop = true) :
    (processLine cmd s line).eventStop = true := by
  unfold processLine
  split
  · exact handleResponse_stop _ _ _ h
  · simp [h]

lemma processByte_stop (cmd : Command) (s : ClientState) (b : Nat) (h : s.eventStop = true) :
    (processByte cmd s b).eventStop = true := by
  unfold processByte
  repeat' split
  all_goals first | exact processLine_stop _ _ _ h | simp [h]

lemma processChunk_stop (cmd : Command) (bytes : List Nat) :
    ∀ s : ClientState, s.eventStop = true → (processChunk cmd s bytes).eventStop = true := by
  induction bytes with
  | nil => intro s h; exact h
  | cons b rest ih =>
    intro s h
    exact ih _ (processByte_stop cmd s b h)

lemma processByte_exn (cmd : Command) (s : ClientState) (b : Nat) (h : s.exn.isSome) :
    processByte cmd s b = s := by
  unfold processByte
  simp [h]

lemma processChunk_exn (cmd : Command) (bytes : List Nat) :
    ∀ s : ClientState, s.exn.isSome → processChunk cmd s bytes = s := by
  induction bytes with
  | nil => intro s _; rfl
  | cons b rest ih =>
    intro s h
    show processChunk cmd (processByte cmd s b) rest = s
    rw [processByte_exn cmd s b h, ih s h]

lemma recvLoop_stopped (cmd : Command) (s : ClientState) (events : List RecvEvent)
    (h : s.eventStop = true) : recvLoop cmd s events = s := by
  cases events with
  | nil => rfl
  | cons e rest =>
    unfold recvLoop
    repeat' split
    all_goals simp_all

lemma recvLoop_exn (cmd : Command) (s : ClientState) (events : List RecvEvent)
    (h : s.exn.isSome = true) : recvLoop cmd s events = s := by
  cases events with
  | nil => rfl
  | cons e rest =>
    unfold recvLoop
    repeat' split
    all_goals simp_all

lemma recvLoop_chunk_nil (cmd : Command) (s : ClientState) :
    recvLoop cmd s [.chunk []] = s := by
  show (if s.exn.isSome = true then s else if s.eventStop = true then s else s) = s
  split
  · rfl
  · split <;> rfl

lemma recvLoop_cons_chunk (cmd : Command) (s : ClientState) (b : Nat) (bs : List Nat)
    (rest : List RecvEvent) (hexn : s.exn.isSome = false) (hst : s.eventStop = false) :
    recvLoop cmd s (.chunk (b :: bs) :: rest) = recvLoop cmd (processChunk cmd s (b :: bs)) rest := by
  show (if s.exn.isSome = true then s
        else if s.eventStop = true then s
        else recvLoop cmd (processChunk cmd s (b :: bs)) rest)
      = recvLoop cmd (processChunk cmd s (b :: bs)) rest
  simp [hexn, hst]

lemma recvLoop_one_chunk (cmd : Command) (s : ClientState) (b : Nat) (bs : List Nat)
    (hexn : s.exn.isSome = false) (hst : s.eventStop = false) :
    recvLoop cmd s [.chunk (b :: bs)] = processChunk cmd s (b :: bs) := by
  rw [recvLoop_cons_chunk cmd s b bs [] hexn hst]
  rfl

lemma frameChunks_flatten (cs : List (List Nat)) :
    ∀ st : FrameSt, frameChunks st cs = frameBytes st cs.flatten := by
  induction cs with
  | nil => intro st; rfl
  | cons c cs ih =>
    intro st
    have hflat : (c :: cs).flatten = c ++ cs.flatten := by simp
    rw [hflat, frameBytes_append]
    exact ih (frameBytes st c)

/-- The key chunking lemma: when the one-read processing of the whole stream
does not end with the stop flag set, delivering the stream in any sequence of
non-empty reads drives the receive loop to the same final state. -/
lemma recvLoop_chunking (cmd : Command) (cs : List (List Nat)) :
    ∀ s : ClientState, (∀ c ∈ cs, c ≠ []) →
      (recvLoop cmd s [.chunk cs.flatten]).eventStop = false →
      recvLoop cmd s (cs.map .chunk) = recvLoop cmd s [.chunk cs.flatten] := by
  induction cs with
  | nil =>
    intro s _ _
    exact (recvLoop_chunk_nil cmd s).symm
  | cons c cs ih =>
    intro s hne hstop
    by_cases hexn : s.exn.isSome = true
    · rw [recvLoop_exn cmd s _ hexn, recvLoop_exn cmd s _ hexn]
    · rw [Bool.not_eq_true] at hexn
      by_cases hst : s.eventStop = true
      · rw [recvLoop_stopped cmd s _ hst, recvLoop_stopped cmd s _ hst]
      · rw [Bool.not_eq_true] at hst
        obtain ⟨b, bs, rfl⟩ : ∃ b bs, c = b :: bs := by
          cases c with
          | nil => exact absurd rfl (hne [] (by simp))
          | cons b bs => exact ⟨b, bs, rfl⟩
        have hflat : ((b :: bs) :: cs).flatten = b :: (bs ++ cs.flatten) := by simp
        have hrhs : recvLoop cmd s [.chunk (((b :: bs) :: cs).flatten)]
            = processChunk cmd (processChunk cmd s (b :: bs)) cs.flatten := by
          rw [hflat, recvLoop_one_chunk cmd s _ _ hexn hst]
          show processChunk cmd s ((b :: bs) ++ cs.flatten) = _
          rw [processChunk_append]
        set s1 := processChunk cmd s (b :: bs) with hs1def
        have hs1stop : s1.eventStop = false := by
          cases hb : s1.eventStop
          · rfl
          · exfalso
            have := processChunk_stop cmd cs.flatten s1 hb
            rw [hrhs] at hstop
            rw [this] at hstop
            simp at hstop
        have hlhs : recvLoop cmd s ((((b :: bs) :: cs)).map .chunk)
            = recvLoop cmd s1 (cs.map .chunk) := by
          rw [List.map_cons]
          exact recvLoop_cons_chunk cmd s b bs _ hexn hst
        rw [hlhs, hrhs]
        by_cases hs1exn : s1.exn.isSome = true
        · rw [recvLoop_exn cmd s1 _ hs1exn, processChunk_exn cmd cs.flatten s1 hs1exn]
        · rw [Bool.not_eq_true] at hs1exn
          have hstop2 : (recvLoop cmd s1 [.chunk cs.flatten]).eventStop = false := by
            cases hf : cs.flatten with
            | nil =>
              rw [recvLoop_chunk_nil cmd s1]
              exact hs1stop
            | cons x xs =>
              rw [recvLoop_one_chunk cmd s1 x xs hs1exn hs1stop]
              rw [hrhs, hf] at hstop
              exact hstop
          have hne2 : ∀ d ∈ cs, d ≠ [] := fun d hd => hne d (by simp [hd])
          rw [ih s1 hne2 hstop2]
          cases hf : cs.flatten with
          | nil =>
            rw [recvLoop_chunk_nil cmd s1]
            rfl
          | cons x xs =>
            rw [recvLoop_one_chunk cmd s1 x xs hs1exn hs1stop]

lemma processLine_invalid (cmd : Command) (s : ClientState) (line : String)
    (h : jsonParse line = none) :
    processLine cmd s line
      = { s with error := some (.str ("Invalid JSON: " ++ line)),
                 dispatched := s.dispatched ++ [line] } := by
  unfold processLine
  rw [h]

lemma disconnect_sent (s : ClientState) : (disconnect s).sent = s.sent := rfl

lemma catchUnexpected_sent (s : ClientState) : (catchUnexpected s).sent = s.sent := by
  unfold catchUnexpected
  split <;> rfl

lemma receiveResponses_sent (cmd : Command) (s : ClientState) (events : List RecvEvent) :
    (receiveResponses cmd s events).sent = s.sent := by
  unfold receiveResponses
  split
  · rfl
  · exact recvLoop_sent cmd events s

lemma run_ok_sent (cmd : Command) (events : List RecvEvent) (s0 : ClientState) :
    (run cmd .ok events s0).sent
      = s0.sent ++ [utf8Encode (Json.serialize cmd.payload) ++ [10]] := by
  show (disconnect (catchUnexpected
      (receiveResponses cmd (sendRequest cmd { s0 with socket := some () }) events))).sent = _
  rw [disconnect_sent, catchUnexpected_sent, receiveResponses_sent]
  rfl

lemma permStep_record (s : ClientState) (n : String) (g : Bool) (hexn : s.exn = none) :
    permStep s (mkPermRecord (n, g))
      = if g then s
        else disconnect { s with error := some (.str ("Permission denied: " ++ n)) } := by
  unfold permStep mkPermRecord
  rw [hexn]
  cases g <;> simp [jsonLookup, Json.truthy, pyStr]

lemma foldl_perm_closed (ps : List (String × Bool)) :
    ∀ s : ClientState, s.exn = none →
      (ps.map mkPermRecord).foldl permStep s
        = match lastDeniedName ps with
          | none => s
          | some n => disconnect { s with error := some (Json.str ("Permission denied: " ++ n)) } := by
  induction ps with
  | nil => intro s _; rfl
  | cons p ps ih =>
    intro s hexn
    obtain ⟨n, g⟩ := p
    rw [List.map_cons, List.foldl_cons, permStep_record s n g hexn]
    cases g with
    | false =>
      rw [if_neg (by simp)]
      have hexn2 : (disconnect { s with error := some (.str ("Permission denied: " ++ n)) }).exn = none := hexn
      rw [ih _ hexn2]
      cases hl : lastDeniedName ps with
      | none => simp [lastDeniedName, hl]
      | some m => simp [lastDeniedName, hl, disconnect, closeSocket, setStop]
    | true =>
      rw [if_pos rfl]
      rw [ih s hexn]
      cases hl : lastDeniedName ps with
      | none => simp [lastDeniedName, hl]
      | some m => simp [lastDeniedName, hl]

end HelperLemmas

set_option maxRecDepth 100000

/-- Claim C4 (confirmed): constructing a location command succeeds exactly
when the lowercased provider is in the provider allow-list and the lowercased
request is in the request allow-list; construction is a pure check performed
before any socket exists (a fresh client has no socket; a connection is only
opened later, inside `run`). -/
theorem c4_location_validation (provider request : String) :
    ((mkLocationCommand provider request).isOk = true ↔
      (provider.toLower ∈ ALLOWED_PROVIDERS ∧ request.toLower ∈ ALLOWED_REQUESTS))
    ∧ initClientState.socket = none := by
  refine ⟨?_, rfl⟩
  unfold mkLocationCommand
  by_cases hp : provider.toLower ∈ ALLOWED_PROVIDERS
  · by_cases hr : request.toLower ∈ ALLOWED_REQUESTS
    · simp [hp, hr, Except.isOk, Except.toBool]
    · simp [hp, hr, Except.isOk, Except.toBool]
  · simp [hp, Except.isOk, Except.toBool]

/-- Claim C9 (confirmed): `disconnect` is idempotent and total (the model of
an operation that never raises), it is exactly the stop-flag write followed by
the socket close, the stop flag is already set when the close step runs, and
after one call the socket slot is empty, so no later call can close it again
(the close branch fires only when a socket is present). -/
theorem c9_disconnect_idempotent (s : ClientState) :
    disconnect (disconnect s) = disconnect s
    ∧ disconnect s = closeSocket (setStop s)
    ∧ (setStop s).eventStop = true
    ∧ (disconnect s).socket = none
    ∧ (disconnect s).socket.isSome = false :=
  ⟨rfl, rfl, rfl, rfl, rfl⟩

/-- Claim C7 (confirmed): `execute` (modelled at the moment the thread join
returns, with `finished` telling whether the worker completed) always returns
the `(result, error)` pair — the model is total, mirroring that no exception
crosses to the caller; when the worker finished, the pair is the worker's
outcome and the socket is already closed by `run`'s finally-disconnect; when
the timeout elapsed first, `execute` stores the timeout message, disconnects,
and the socket is closed on return. -/
theorem c7_execute_contract (cmd : Command) (co : ConnectOutcome) (events : List RecvEvent) :
    (executeStep true (run cmd co events initClientState)).1
        = ((run cmd co events initClientState).result, (run cmd co events initClientState).error)
    ∧ (executeStep true (run cmd co events initClientState)).2.socket = none
    ∧ (∀ s : ClientState,
        (executeStep false s).1.2 = some (Json.str "Request timed out")
        ∧ (executeStep false s).2.socket = none) := by
  refine ⟨rfl, ?_, fun s => ⟨rfl, rfl⟩⟩
  show (run cmd co events initClientState).socket = none
  cases co <;> exact disconnect_socket _

/-- Claim C8 (confirmed): on a successful connection the outbound traffic of
one conversation, for every command, is exactly one message: the UTF-8
encoding of the serialized request body followed by a single newline byte;
and the request bodies of the three variants have the documented
`extras`/`api_method` shape, the location variant additionally carrying its
provider and request values. -/
theorem c8_outbound_traffic (cmd : Command) (events : List RecvEvent) :
    (run cmd .ok events initClientState).sent
        = [utf8Encode (Json.serialize cmd.payload) ++ [10]]
    ∧ (∀ p r, locationToDict p r
        = Json.obj [("extras", Json.obj [("api_method", Json.str "Location"),
            ("provider", Json.str p), ("request", Json.str r)])])
    ∧ (∀ ks, notificationListToDict ks
        = Json.obj [("extras", Json.obj [("api_method", Json.str "NotificationList"),
            ("keys", Json.arr ks)])])
    ∧ (∀ nid, notificationRemoveToDict nid
        = Json.obj [("extras", Json.obj [("api_method", Json.str "NotificationRemove"),
            ("id", Json.str nid)])]) := by
  refine ⟨?_, fun p r => rfl, fun ks => rfl, fun nid => rfl⟩
  rw [run_ok_sent]
  rfl

/-- Claim C10 (confirmed): the permissions handler iterates over every record
of the list — it does not stop at the first denial — so when at least one
record is not granted, the error slot ends up holding the denial message of
the last non-granted record in list order (and the client is disconnected). -/
theorem c10_last_denial_wins (s : ClientState) (ps : List (String × Bool)) (name : String)
    (hexn : s.exn = none) (hlast : lastDeniedName ps = some name) :
    handlePermissions s (Json.arr (ps.map mkPermRecord))
      = disconnect { s with error := some (Json.str ("Permission denied: " ++ name)) } := by
  show (ps.map mkPermRecord).foldl permStep s = _
  rw [foldl_perm_closed ps s hexn, hlast]

/-- Witness for C10 at a concrete record list: with denials A and B and a
granted C, the surviving error names B. -/
theorem c10_last_denial_wins_witness :
    handlePermissions openState (Json.arr ([("A", false), ("B", false), ("C", true)].map mkPermRecord))
      = disconnect { openState with error := some (Json.str "Permission denied: B") } :=
  c10_last_denial_wins openState [("A", false), ("B", false), ("C", true)] "B" rfl rfl

/-- Claim C3 (confirmed): a line that fails JSON decoding sets the error slot
to the invalid-JSON message and changes nothing else — in particular the
socket, the stop flag, the result and the exception slot are untouched, so
the client does not disconnect — and the receive loop then still enters the
next non-empty read chunk exactly as it would from a live state. -/
theorem c3_invalid_json_recoverable (cmd : Command) (s : ClientState) (line : String)
    (h : jsonParse line = none) :
    processLine cmd s line
      = { s with error := some (Json.str ("Invalid JSON: " ++ line)),
                 dispatched := s.dispatched ++ [line] }
    ∧ (s.exn.isSome = false → s.eventStop = false →
        ∀ (bs : List Nat) (rest : List RecvEvent), bs ≠ [] →
          recvLoop cmd (processLine cmd s line) (.chunk bs :: rest)
            = recvLoop cmd (processChunk cmd (processLine cmd s line) bs) rest) := by
  refine ⟨processLine_invalid cmd s line h, fun hexn hstop bs rest hbs => ?_⟩
  obtain ⟨b, bs2, rfl⟩ : ∃ b bs2, bs = b :: bs2 := by
    cases bs with
    | nil => exact absurd rfl hbs
    | cons b bs2 => exact ⟨b, bs2, rfl⟩
  apply recvLoop_cons_chunk
  · rw [processLine_invalid cmd s line h]
    exact hexn
  · rw [processLine_invalid cmd s line h]
    exact hstop

/-- Witness for C3 at a concrete garbled line followed by a well-formed
line. -/
theorem c3_invalid_json_recoverable_witness :
    processLine locCmd openState "oops"
      = { openState with error := some (Json.str "Invalid JSON: oops"), dispatched := ["oops"] }
    ∧ recvLoop locCmd (processLine locCmd openState "oops") [.chunk latLineBytes]
      = recvLoop locCmd (processChunk locCmd (processLine locCmd openState "oops") latLineBytes) [] := by
  have h := c3_invalid_json_recoverable locCmd openState "oops" rfl
  exact ⟨h.1, h.2 rfl rfl latLineBytes [] (by decide)⟩

/-- Claim C1 counterexample: after a garbled line the error slot is set, yet
the connection is not torn down (socket still open, stop flag clear) and a
line from a later read is still dispatched to the data handler, which sets
the result — so "once the error slot is set ... no further received lines are
dispatched" is false for the invalid-JSON error path. -/
theorem c1_error_without_teardown_cex :
    (processChunk locCmd openState (bytesOf "oops\n")).error
        = some (Json.str "Invalid JSON: oops")
    ∧ (processChunk locCmd openState (bytesOf "oops\n")).socket = some ()
    ∧ (processChunk locCmd openState (bytesOf "oops\n")).eventStop = false
    ∧ (recvLoop locCmd (processChunk locCmd openState (bytesOf "oops\n"))
        [.chunk latLineBytes]).result = some latObj :=
  ⟨rfl, rfl, rfl, rfl⟩

/-- Claim C1 (amended): once the error slot is set by the error handler the
connection is torn down (stop flag set, socket closed), and once the stop
flag is set no event of a later read is processed at all; an error recorded
for an invalid-JSON line, however, neither tears down the connection nor
stops processing. -/
theorem c1_terminal_error_teardown :
    (∀ (s : ClientState) (msg : Json),
        handleError s msg = disconnect { s with error := some msg }
        ∧ (handleError s msg).eventStop = true
        ∧ (handleError s msg).socket = none)
    ∧ (∀ (cmd : Command) (s : ClientState) (events : List RecvEvent),
        s.eventStop = true → recvLoop cmd s events = s)
    ∧ (∀ (cmd : Command) (s : ClientState) (line : String), jsonParse line = none →
        (processLine cmd s line).eventStop = s.eventStop
        ∧ (processLine cmd s line).socket = s.socket
        ∧ (processLine cmd s line).error = some (Json.str ("Invalid JSON: " ++ line))) := by
  refine ⟨fun s msg => ⟨rfl, rfl, rfl⟩,
          fun cmd s events h => recvLoop_stopped cmd s events h,
          fun cmd s line h => ?_⟩
  rw [processLine_invalid cmd s line h]
  exact ⟨rfl, rfl, rfl⟩

/-- Witness for the amended C1 at concrete inputs. -/
theorem c1_terminal_error_teardown_witness :
    recvLoop locCmd (disconnect openState) [.chunk latLineBytes] = disconnect openState
    ∧ (handleError openState (Json.str "x")).socket = none
    ∧ (processLine locCmd openState "oops").eventStop = openState.eventStop :=
  ⟨c1_terminal_error_teardown.2.1 locCmd (disconnect openState) [.chunk latLineBytes] rfl,
   (c1_terminal_error_teardown.1 openState (Json.str "x")).2.2,
   (c1_terminal_error_teardown.2.2 locCmd openState "oops" rfl).1⟩

/-- Claim C2 counterexample: when the denied-permission line and a location
line arrive in the same read chunk, the denial is recorded and the client
disconnects, yet the data handler still fires on the rest of the chunk and
sets the result — so "the data handler never fires afterward, even if more
lines follow in the same stream" is false as stated. -/
theorem c2_handler_fires_same_chunk_cex :
    (recvLoop locCmd openState [.chunk (permDeniedBytes ++ latLineBytes)]).error
        = some (Json.str "Permission denied: ACCESS_FINE_LOCATION")
    ∧ (recvLoop locCmd openState [.chunk (permDeniedBytes ++ latLineBytes)]).result
        = some latObj :=
  ⟨rfl, rfl⟩

/-- Claim C2 (amended): a line whose permissions field holds a record with a
false granted flag makes the client record the denial message containing the
permission's name and disconnect (stop flag set, socket closed, result slot
untouched by this line), and from that state no event of any later read is
processed, so the data handler cannot fire on lines delivered in subsequent
reads — though lines that arrived in the same read chunk are still
dispatched (see the counterexample). -/
theorem c2_denied_permission_terminal (cmd : Command) (s : ClientState) (name : String)
    (hexn : s.exn = none) :
    handleResponse cmd s (permDeniedLine name)
      = disconnect { s with error := some (Json.str ("Permission denied: " ++ name)) }
    ∧ ∀ events : List RecvEvent,
        recvLoop cmd (handleResponse cmd s (permDeniedLine name)) events
          = handleResponse cmd s (permDeniedLine name) := by
  have h1 : handleResponse cmd s (permDeniedLine name)
      = disconnect { s with error := some (Json.str ("Permission denied: " ++ name)) } := by
    have h2 := foldl_perm_closed [(name, false)] s hexn
    exact h2
  refine ⟨h1, fun events => ?_⟩
  rw [h1]
  exact recvLoop_stopped cmd _ events rfl

/-- Witness for the amended C2 at a concrete denied permission followed by a
later read. -/
theorem c2_denied_permission_terminal_witness :
    handleResponse locCmd openState (permDeniedLine "ACCESS_FINE_LOCATION")
      = disconnect { openState with
          error := some (Json.str "Permission denied: ACCESS_FINE_LOCATION") }
    ∧ recvLoop locCmd
        (handleResponse locCmd openState (permDeniedLine "ACCESS_FINE_LOCATION"))
        [.chunk latLineBytes]
      = handleResponse locCmd openState (permDeniedLine "ACCESS_FINE_LOCATION") :=
  ⟨(c2_denied_permission_terminal locCmd openState "ACCESS_FINE_LOCATION" rfl).1,
   (c2_denied_permission_terminal locCmd openState "ACCESS_FINE_LOCATION" rfl).2
      [.chunk latLineBytes]⟩

/-- Claim C5 counterexample: two latitude lines delivered in one read chunk
are both handed to the data handler, and the handler overwrites the result,
so the final result is the second latitude line, not the first — "the first
line containing a latitude field becomes the final result" is false when
later latitude lines arrive in the same chunk. -/
theorem c5_second_fix_overwrites_cex :
    (recvLoop locCmd openState [.chunk (latLineBytes ++ latLine2Bytes)]).result = some latObj2
    ∧ some latObj2 ≠ some latObj := by
  refine ⟨rfl, ?_⟩
  simp [latObj, latObj2]

/-- Claim C5 (amended): for the location variant, every line with a latitude
field handed to the data handler sets the result to that line and
disconnects (so of the lines actually handed to the handler, the last
latitude line determines the result), every line without a latitude field
leaves the state completely unchanged, and because the disconnect stops all
later reads, the read chunk that first sets the stop flag is final — hence
with one line per read the first latitude line is the final result. -/
theorem c5_first_qualifying_line (cmd : Command) (hv : cmd.variant = Variant.location)
    (s : ClientState) (d : Json) :
    (d.hasKey "latitude" = true → handleData cmd s d = disconnect { s with result := some d })
    ∧ (d.hasKey "latitude" = false → handleData cmd s d = s)
    ∧ (∀ (bs : List Nat) (rest : List RecvEvent),
        bs ≠ [] → s.exn.isSome = false → s.eventStop = false →
        (processChunk cmd s bs).eventStop = true →
        recvLoop cmd s (.chunk bs :: rest) = processChunk cmd s bs) := by
  refine ⟨fun h => ?_, fun h => ?_, fun bs rest hbs hexn hstop hchunk => ?_⟩
  · unfold handleData
    rw [hv]
    simp [h]
  · unfold handleData
    rw [hv]
    simp [h]
  · obtain ⟨b, bs2, rfl⟩ : ∃ b bs2, bs = b :: bs2 := by
      cases bs with
      | nil => exact absurd rfl hbs
      | cons b bs2 => exact ⟨b, bs2, rfl⟩
    rw [recvLoop_cons_chunk cmd s b bs2 rest hexn hstop]
    exact recvLoop_stopped cmd _ rest hchunk

/-- Witness for the amended C5: a latitude line is taken and disconnects, a
status line is ignored, and once the first fix's read finishes the loop, a
second fix delivered in a later read is never processed. -/
theorem c5_first_qualifying_line_witness :
    handleData locCmd openState latObj = disconnect { openState with result := some latObj }
    ∧ handleData locCmd openState (Json.obj [("status", Json.str "searching")]) = openState
    ∧ recvLoop locCmd openState [.chunk latLineBytes, .chunk latLine2Bytes]
        = processChunk locCmd openState latLineBytes := by
  have h := c5_first_qualifying_line locCmd rfl openState
  exact ⟨(h latObj).1 rfl,
         (h (Json.obj [("status", Json.str "searching")])).2.1 rfl,
         (h latObj).2.2 latLineBytes [.chunk latLine2Bytes] (by decide) rfl rfl rfl⟩

/-- Claim C6 counterexample: the stream carrying a remote-error line and then
a location line yields different outcomes delivered as one read versus as two
reads split at the line boundary: in one read the error line disconnects but
the rest of the chunk is still dispatched (result set, both lines
dispatched), while split across two reads the second read is never processed
(no result, one line dispatched) — so chunking does change the outcome. -/
theorem c6_chunking_changes_outcome_cex :
    (recvLoop locCmd openState [.chunk (errLineBytes ++ latLineBytes)]).result = some latObj
    ∧ (recvLoop locCmd openState [.chunk errLineBytes, .chunk latLineBytes]).result = none
    ∧ (recvLoop locCmd openState [.chunk (errLineBytes ++ latLineBytes)]).dispatched
        = ["\x7b\"error\": \"x\"\x7d", "\x7b\"latitude\": 1\x7d"]
    ∧ (recvLoop locCmd openState [.chunk errLineBytes, .chunk latLineBytes]).dispatched
        = ["\x7b\"error\": \"x\"\x7d"] :=
  ⟨rfl, rfl, rfl, rfl⟩

/-- Claim C6 (amended): the framing discipline itself — accumulate bytes,
complete a line at every newline byte — recognizes exactly the same byte
lines under every chunking of the stream, including chunkings that split a
multi-byte UTF-8 character (framing is byte-oriented, so the decoded lines,
for any decoding function applied to the completed lines, agree as well);
and whenever processing the whole stream as one read ends with the stop flag
clear, the receive loop reaches the same final state — result, error,
dispatched lines and all — under every splitting into non-empty reads.  When
a line sets the stop flag mid-stream, outcomes can differ between chunkings
(see the counterexample). -/
theorem c6_framing_chunk_invariant :
    (∀ (st : FrameSt) (cs : List (List Nat)), frameChunks st cs = frameBytes st cs.flatten)
    ∧ (∀ (dec : List Nat → String) (st : FrameSt) (cs : List (List Nat)),
        (frameChunks st cs).lines.map dec = (frameBytes st cs.flatten).lines.map dec)
    ∧ (∀ (cmd : Command) (s : ClientState) (cs : List (List Nat)),
        (∀ c ∈ cs, c ≠ []) →
        (recvLoop cmd s [.chunk cs.flatten]).eventStop = false →
        recvLoop cmd s (cs.map .chunk) = recvLoop cmd s [.chunk cs.flatten]) :=
  ⟨fun st cs => frameChunks_flatten cs st,
   fun dec st cs => by rw [frameChunks_flatten cs st],
   fun cmd s cs hne hstop => recvLoop_chunking cmd cs s hne hstop⟩

/-- Wire bytes of a data line containing a two-byte UTF-8 character. -/
def accentLineBytes : List Nat := bytesOf "\x7b\"s\": \"é\"\x7d\n"

/-- Witness for the amended C6: the accent line split in the middle of its
two-byte character (after byte 8) is processed to the same state as in one
read, and frames to the same lines. -/
theorem c6_framing_chunk_invariant_witness :
    recvLoop locCmd openState
        ([accentLineBytes.take 8, accentLineBytes.drop 8].map RecvEvent.chunk)
      = recvLoop locCmd openState
          [.chunk ([accentLineBytes.take 8, accentLineBytes.drop 8].flatten)]
    ∧ frameChunks {} [accentLineBytes.take 8, accentLineBytes.drop 8]
      = frameBytes {} ([accentLineBytes.take 8, accentLineBytes.drop 8].flatten) :=
  ⟨c6_framing_chunk_invariant.2.2 locCmd openState
      [accentLineBytes.take 8, accentLineBytes.drop 8] (by decide) rfl,
   c6_framing_chunk_invariant.1 {} [accentLineBytes.take 8, accentLineBytes.drop 8]⟩

end XiaozhiApi
